import Mathlib

set_option maxRecDepth 2000000
set_option maxHeartbeats 2000000

/-!
Verification development for the CiteFix document-surgery engine.

The Python source manipulates WordprocessingML parts as raw strings via
regular expressions.  We embed the relevant routines as executable
functions over `List Char`, mirroring the exact scanning behaviour of the
regexes used in the source (`document.py`, `formatter.py`, `app.py`):
left-to-right scanning, non-greedy groups realised as "first occurrence"
searches, and character classes realised as character predicates.
-/

namespace CiteFix

/-- Byte/character strings, the raw content of a document part. -/
abbrev Str := List Char

/-- Split `s` at the first occurrence of `pat`: returns `(before, after)`
with `s = before ++ pat ++ after`.  This realises a non-greedy `(.*?)pat`
regex group. -/
def splitAtSub (pat : Str) : Str → Option (Str × Str)
  | [] => none
  | c :: t =>
    if (c :: t).take pat.length = pat then some ([], (c :: t).drop pat.length)
    else
      match splitAtSub pat t with
      | some (b, a) => some (c :: b, a)
      | none => none

/-- Substring test, as Python's `in` operator on strings. -/
def containsSub (s pat : Str) : Bool := (splitAtSub pat s).isSome

/-- Whitespace characters stripped by Python's `str.strip`. -/
def pyIsSpace (c : Char) : Bool :=
  c = ' ' || c = '\t' || c = '\n' || c = '\r' || c = Char.ofNat 11 || c = Char.ofNat 12

/-- Python `str.strip()`. -/
def pyStrip (s : Str) : Str :=
  ((s.dropWhile pyIsSpace).reverse.dropWhile pyIsSpace).reverse

/-- Python `str.rstrip(set)`: split trailing characters drawn from `set`
off the end of `s`, returning `(kept, stripped)` with
`s = kept ++ stripped`. -/
def rstripSplit (set : Str) (s : Str) : Str × Str :=
  ((s.reverse.dropWhile set.contains).reverse, (s.reverse.takeWhile set.contains).reverse)

/-- One entry of a relationships sidecar, as stored by
`RelationshipManager` (`document.py` lines 22-28). -/
structure RelEntry where
  target : Str
  type : Str
  external : Bool
deriving DecidableEq, Repr

/-- The in-memory relationship dictionary (insertion ordered, as a Python
dict). -/
abbrev RelTable := List (Str × RelEntry)

/-- The OOXML hyperlink relationship type URL (`document.py` line 36). -/
def hyperlinkType : Str :=
  ("http://schemas.openxmlformats.org/officeDocument/2006/relationships/hyperlink").data

/-- Python dict assignment `d[k] = v`: overwrite in place, else append. -/
def insertRel : RelTable → Str → RelEntry → RelTable
  | [], rid, e => [(rid, e)]
  | (k, v) :: rest, rid, e =>
    if k = rid then (k, e) :: rest else (k, v) :: insertRel rest rid e

/-- `RelationshipManager.add_hyperlink` (`document.py` lines 31-39): the
new id is `rId` followed by the first eight hex digits of a fresh UUID;
the random draw is modelled by the explicit `suffix` argument.  No maximum
is computed over existing ids and no collision check is made. -/
def add_hyperlink (t : RelTable) (url : Str) (suffix : Str) : Str × RelTable :=
  let relId := ("rId").data ++ suffix
  (relId, insertRel t relId ⟨url, hyperlinkType, true⟩)

/-- `RelationshipManager._load` (`document.py` lines 17-29): the minidom
parse of the sidecar is modelled by its outcome `parsed`; on any parse
failure (`except Exception`) the table is silently reset to empty. -/
def loadRels (parsed : Option RelTable) : RelTable := parsed.getD []

/-- One serialized `<Relationship .../>` element (`document.py`
lines 47-53, attribute order Id, Type, Target, TargetMode). -/
def relEntryXml (p : Str × RelEntry) : Str :=
  ("<Relationship Id=\"").data ++ p.1 ++ ("\" Type=\"").data ++ p.2.type ++
    ("\" Target=\"").data ++ p.2.target ++ [Char.ofNat 34] ++
    (if p.2.external then (" TargetMode=\"External\"").data else []) ++ ("/>").data

/-- `RelationshipManager._save` (`document.py` lines 41-59): fixed XML
declaration then the `Relationships` root holding exactly the current
dictionary entries. -/
def serializeRels (t : RelTable) : Str :=
  ("<?xml version=\"1.0\" encoding=\"UTF-8\" standalone=\"yes\"?>\r\n").data ++
    (if t = [] then
      ("<Relationships xmlns=\"http://schemas.openxmlformats.org/package/2006/relationships\"/>").data
    else
      ("<Relationships xmlns=\"http://schemas.openxmlformats.org/package/2006/relationships\">").data ++
        (t.map relEntryXml).flatten ++ ("</Relationships>").data)

/-- `WordDocumentProcessor._escape_xml` (`document.py` lines 143-144). -/
def escChar (c : Char) : Str :=
  if c = '&' then ("&amp;").data
  else if c = '<' then ("&lt;").data
  else if c = '>' then ("&gt;").data
  else if c = Char.ofNat 34 then ("&quot;").data
  else if c = Char.ofNat 39 then ("&apos;").data
  else [c]

/-- XML escaping of a whole string (`document.py` line 144). -/
def escape_xml (s : Str) : Str := (s.map escChar).flatten

/-- Python `html.escape` with `quote=True`, used by
`LinkActivator.linkify_text_node` (`formatter.py` line 417). -/
def htmlEscChar (c : Char) : Str :=
  if c = '&' then ("&amp;").data
  else if c = '<' then ("&lt;").data
  else if c = '>' then ("&gt;").data
  else if c = Char.ofNat 34 then ("&quot;").data
  else if c = Char.ofNat 39 then ("&#x27;").data
  else [c]

/-- Python `html.escape` on a whole string. -/
def htmlEscape (s : Str) : Str := (s.map htmlEscChar).flatten

/-- Match of the URL regex at the start of `s`: scheme `https?://`
followed by a maximal non-empty run of characters satisfying `cls`,
returning `(url, rest)`.  The class differs between the two call sites
(`document.py` line 113 vs `formatter.py` line 411). -/
def matchUrl (cls : Char → Bool) (s : Str) : Option (Str × Str) :=
  let n : Option Nat :=
    if s.take 8 = ("https://").data then some 8
    else if s.take 7 = ("http://").data then some 7
    else none
  match n with
  | none => none
  | some k =>
    let body := (s.drop k).takeWhile cls
    if body = [] then none
    else some (s.take k ++ body, (s.drop k).drop body.length)

/-- Character class `[^\s<]` of the URL regex in
`WordDocumentProcessor._html_to_word_xml` (`document.py` line 113). -/
def htmlUrlCls (c : Char) : Bool := !(pyIsSpace c || c = '<')

/-- Character class `[^\s<>"]` of the URL regex in
`LinkActivator.linkify_text_node` (`formatter.py` line 411). -/
def actUrlCls (c : Char) : Bool :=
  !(pyIsSpace c || c = '<' || c = '>' || c = Char.ofNat 34)

/-- `re.split` with the capturing URL pattern (`document.py` line 113):
alternating pieces tagged `false` (plain text, possibly empty) and `true`
(a URL match). -/
def splitUrlAux (cls : Char → Bool) : Nat → Str → Str → List (Bool × Str)
  | 0, acc, rest => [(false, acc.reverse ++ rest)]
  | _ + 1, acc, [] => [(false, acc.reverse)]
  | fuel + 1, acc, c :: t =>
    match matchUrl cls (c :: t) with
    | some (url, rest) => (false, acc.reverse) :: (true, url) :: splitUrlAux cls fuel [] rest
    | none => splitUrlAux cls fuel (c :: acc) t

/-- Split a markup string on bare URLs as `_html_to_word_xml` does. -/
def splitUrl (cls : Char → Bool) (s : Str) : List (Bool × Str) :=
  splitUrlAux cls s.length [] s

/-- `re.split` on the tag pattern matching literal italic tags
(`document.py` line 119): pieces tagged `true` are the tags themselves. -/
def splitTagsAux : Nat → Str → Str → List (Bool × Str)
  | 0, acc, rest => [(false, acc.reverse ++ rest)]
  | _ + 1, acc, [] => [(false, acc.reverse)]
  | fuel + 1, acc, c :: t =>
    if (c :: t).take 4 = ("</i>").data then
      (false, acc.reverse) :: (true, ("</i>").data) :: splitTagsAux fuel [] ((c :: t).drop 4)
    else if (c :: t).take 3 = ("<i>").data then
      (false, acc.reverse) :: (true, ("<i>").data) :: splitTagsAux fuel [] ((c :: t).drop 3)
    else splitTagsAux fuel (c :: acc) t

/-- One plain or italic text run (`document.py` lines 123-126). -/
def runXml (italic : Bool) (txt : Str) : Str :=
  ("<w:r>").data ++ (if italic then ("<w:rPr><w:i/></w:rPr>").data else []) ++
    ("<w:t xml:space=\"preserve\">").data ++ escape_xml txt ++ ("</w:t></w:r>").data

/-- The italic-flag loop over tag-split pieces (`document.py`
lines 118-126). -/
def italicFold : List (Bool × Str) → Bool → Str
  | [], _ => []
  | (true, tag) :: rest, _ => italicFold rest (tag = ("<i>").data)
  | (false, txt) :: rest, italic =>
    (if txt = [] then [] else runXml italic txt) ++ italicFold rest italic

/-- The relationship-backed hyperlink element emitted for a URL in the
caller's markup (`document.py` line 136). -/
def hyperlinkXml (relId cleanUrl : Str) : Str :=
  ("<w:hyperlink r:id=\"").data ++ relId ++
    ("\"><w:r><w:rPr><w:rStyle w:val=\"Hyperlink\"/></w:rPr><w:t>").data ++
    escape_xml cleanUrl ++ ("</w:t></w:r></w:hyperlink>").data

/-- The plain run holding trailing punctuation split off a URL
(`document.py` line 138). -/
def trailRunXml (trailing : Str) : Str :=
  ("<w:r><w:t>").data ++ escape_xml trailing ++ ("</w:t></w:r>").data

/-- Punctuation stripped off URL ends by `_html_to_word_xml`
(`document.py` line 130). -/
def htmlPunct : Str := (".,;:)").data

/-- Punctuation stripped off URL ends by `LinkActivator.linkify_text_node`
(`formatter.py` line 416) — note the missing colon. -/
def actPunct : Str := (".,;)").data

/-- `WordDocumentProcessor._html_to_word_xml` (`document.py`
lines 111-141): translate the caller's markup to a fresh `<w:p>` of runs,
minting a relationship per URL; the i-th mint uses suffix `sfx i`. -/
def html_to_word_xml (html : Str) (t : RelTable) (sfx : Nat → Str) : Str × RelTable :=
  let step : Str × RelTable × Nat → Bool × Str → Str × RelTable × Nat := fun st piece =>
    match st, piece with
    | (acc, tb, k), (false, txt) =>
      (acc ++ (if txt = [] then [] else italicFold (splitTagsAux txt.length [] txt) false), tb, k)
    | (acc, tb, k), (true, url) =>
      let cl := rstripSplit htmlPunct url
      let st1 : Str × RelTable × Nat :=
        if cl.1 = [] then (acc, tb, k)
        else
          let mint := add_hyperlink tb cl.1 (sfx k)
          (acc ++ hyperlinkXml mint.1 cl.1, mint.2, k + 1)
      (st1.1 ++ (if cl.2 = [] then [] else trailRunXml cl.2), st1.2.1, st1.2.2)
  let res := (splitUrl htmlUrlCls html).foldl step (("<w:p>").data, t, 0)
  (res.1 ++ ("</w:p>").data, res.2.1)

/-- Literal opening of an endnote element. -/
def openEndnote : Str := ("<w:endnote").data

/-- Literal close tag of an endnote element. -/
def closeEndnote : Str := ("</w:endnote>").data

/-- The literal id attribute `w:id="ID"` interpolated into the patch
regex (`document.py` line 99). -/
def idAttr (noteId : Str) : Str := ("w:id=\"").data ++ noteId ++ [Char.ofNat 34]

/-- Match of the opening-tag group `<w:endnote[^>]*w:id="ID"[^>]*>` at
the start of `s`: the tag runs to the first `>` and must contain the
literal id attribute.  Returns `(openTag, rest)` with
`s = openTag ++ rest`. -/
def matchNoteOpen (noteId : Str) (s : Str) : Option (Str × Str) :=
  if s.take 10 = openEndnote then
    match splitAtSub ['>'] (s.drop 10) with
    | some (body, after) =>
      if containsSub body (idAttr noteId) then
        some (openEndnote ++ body ++ ['>'], after)
      else none
    | none => none
  else none

/-- `re.search` of the patch pattern
`(<w:endnote[^>]*w:id="ID"[^>]*>)(.*?)(</w:endnote>)` (`document.py`
lines 99-100): first position whose opening tag carries the id, inner
content up to the first close tag.  Returns `(pre, openTag, inner, post)`
with the original string equal to
`pre ++ openTag ++ inner ++ closeEndnote ++ post`. -/
def findNoteSplit (noteId : Str) : Str → Option (Str × Str × Str × Str)
  | [] => none
  | c :: t =>
    match matchNoteOpen noteId (c :: t) with
    | some (o, r) =>
      match splitAtSub closeEndnote r with
      | some (i, q) => some ([], o, i, q)
      | none => Option.map (fun x => (c :: x.1, x.2.1, x.2.2.1, x.2.2.2)) (findNoteSplit noteId t)
    | none => Option.map (fun x => (c :: x.1, x.2.1, x.2.2.1, x.2.2.2)) (findNoteSplit noteId t)

/-- `WordDocumentProcessor.write_endnote` restricted to the content
transformation of `word/endnotes.xml` (`document.py` lines 97-105): on
a match, the whole inner content of the note is replaced by the freshly
translated markup; on no match the method returns `False` (here `none`)
without writing. -/
def write_endnote (content noteId html : Str) (t : RelTable) (sfx : Nat → Str) :
    Option (Str × RelTable) :=
  match findNoteSplit noteId content with
  | none => none
  | some (p, o, _, q) =>
    let res := html_to_word_xml html t sfx
    some (p ++ o ++ res.1 ++ closeEndnote ++ q, res.2)

/-- The extraction directory as a map from part path to bytes. -/
abbrev Parts := List (String × Str)

/-- Look a part up by path. -/
def lookupPart : Parts → String → Option Str
  | [], _ => none
  | (m, v) :: t, n => if m = n then some v else lookupPart t n

/-- Write a part: overwrite in place, create if absent (as a file
write does). -/
def updatePart : Parts → String → Str → Parts
  | [], n, v => [(n, v)]
  | (m, w) :: t, n, v =>
    if m = n then (m, v) :: t else (m, w) :: updatePart t n v

/-- Path of the endnotes part. -/
def endnotesName : String := "word/endnotes.xml"

/-- Path of the endnotes relationships sidecar. -/
def relsName : String := "word/_rels/endnotes.xml.rels"

/-- `WordDocumentProcessor.write_endnote` at the level of the extracted
parts (`document.py` lines 91-109): reads `word/endnotes.xml` (absence
raises, modelled `none`), splices the note, writes the new endnotes
content and persists the relationship table to the sidecar; on a failed
note search it returns `False` having written nothing.  `parsedRels` is
the outcome of the minidom parse of the old sidecar. -/
def write_endnote_parts (parts : Parts) (noteId html : Str)
    (parsedRels : Option RelTable) (sfx : Nat → Str) : Option (Bool × Parts) :=
  match lookupPart parts endnotesName with
  | none => none
  | some content =>
    match write_endnote content noteId html (loadRels parsedRels) sfx with
    | none => some (false, parts)
    | some (c, t) =>
      some (true, updatePart (updatePart parts endnotesName c) relsName (serializeRels t))

/-- Capture of `w:id="(\d+)"` inside an opening tag body (`document.py`
line 79): first offset where the literal attribute prefix is followed by
a non-empty maximal digit run closed by a quote. -/
def findIdCap : Str → Option Str
  | [] => none
  | c :: t =>
    if (c :: t).take 6 = ("w:id=\"").data then
      let ds := ((c :: t).drop 6).takeWhile Char.isDigit
      if ds ≠ [] ∧ (((c :: t).drop 6).drop ds.length).take 1 = [Char.ofNat 34] then some ds
      else findIdCap t
    else findIdCap t

/-- Match of `<w:endnote[^>]*w:id="(\d+)"[^>]*>(.*?)</w:endnote>` at the
start of `s`, returning `(id, inner, rest)`. -/
def matchNoteDigits (s : Str) : Option (Str × Str × Str) :=
  if s.take 10 = openEndnote then
    match splitAtSub ['>'] (s.drop 10) with
    | some (body, after) =>
      match findIdCap body with
      | some id =>
        match splitAtSub closeEndnote after with
        | some (inner, rest) => some (id, inner, rest)
        | none => none
      | none => none
    | none => none
  else none

/-- `re.finditer` over the endnote pattern (`document.py` line 79):
non-overlapping matches scanning left to right. -/
def scanEndnotes : Nat → Str → List (Str × Str)
  | 0, _ => []
  | _ + 1, [] => []
  | fuel + 1, c :: t =>
    match matchNoteDigits (c :: t) with
    | some (id, inner, rest) => (id, inner) :: scanEndnotes fuel rest
    | none => scanEndnotes fuel t

/-- Match of the read-side text-node pattern `<w:t[^>]*>([^<]+)</w:t>`
(`document.py` line 84) at the start of `s`. -/
def matchTextRead (s : Str) : Option (Str × Str) :=
  if s.take 4 = ("<w:t").data then
    match splitAtSub ['>'] (s.drop 4) with
    | some (_, after) =>
      let txt := after.takeWhile (fun c => c ≠ '<')
      if txt = [] then none
      else if (after.drop txt.length).take 6 = ("</w:t>").data then
        some (txt, (after.drop txt.length).drop 6)
      else none
    | none => none
  else none

/-- `re.finditer` over the text-node pattern within a note's inner
content (`document.py` lines 84-85). -/
def scanTexts : Nat → Str → List Str
  | 0, _ => []
  | _ + 1, [] => []
  | fuel + 1, c :: t =>
    match matchTextRead (c :: t) with
    | some (txt, rest) => txt :: scanTexts fuel rest
    | none => scanTexts fuel t

/-- One note as returned to callers by `get_endnotes` (the `original`
field of the source dict equals `text` and is omitted). -/
structure EndnoteRec where
  id : Str
  text : Str
deriving DecidableEq, Repr

/-- The per-match body of the `get_endnotes` loop (`document.py`
lines 80-88): reserved ids `0` and `-1` are skipped, the text-bearing
children are concatenated and stripped, and empty results are dropped. -/
def noteToRec (pr : Str × Str) : Option EndnoteRec :=
  if pr.1 = ("0").data ∨ pr.1 = ("-1").data then none
  else if pyStrip (scanTexts pr.2.length pr.2).flatten = [] then none
  else some ⟨pr.1, pyStrip (scanTexts pr.2.length pr.2).flatten⟩

/-- `WordDocumentProcessor.get_endnotes` restricted to the content of
`word/endnotes.xml` (`document.py` lines 72-89). -/
def get_endnotes (content : Str) : List EndnoteRec :=
  (scanEndnotes content.length content).filterMap noteToRec

/-- Match of the activator's run pattern
`(<w:r[^\>]*>)(.*?<w:t[^>]*>.*?</w:t>.*?)(</w:r>)` (`formatter.py`
line 441, DOTALL) at the start of `s`: opening tag to the first `>`, then
the non-greedy inner group realised as first-occurrence searches for
`<w:t`, its `>`, `</w:t>` and the closing `</w:r>`.  Returns
`(group1, group2, rest)`. -/
def matchRunAt (s : Str) : Option (Str × Str × Str) :=
  if s.take 4 = ("<w:r").data then
    match splitAtSub ['>'] (s.drop 4) with
    | some (tagBody, after) =>
      match splitAtSub ("<w:t").data after with
      | some (mid1, afterT) =>
        match splitAtSub ['>'] afterT with
        | some (tattr, afterGt) =>
          match splitAtSub ("</w:t>").data afterGt with
          | some (txt, afterClose) =>
            match splitAtSub ("</w:r>").data afterClose with
            | some (mid2, rest) =>
              some (("<w:r").data ++ tagBody ++ ['>'],
                mid1 ++ ("<w:t").data ++ tattr ++ ['>'] ++ txt ++ ("</w:t>").data ++ mid2,
                rest)
            | none => none
          | none => none
        | none => none
      | none => none
    | none => none
  else none

/-- Match of the inner text-node pattern `(<w:t[^>]*>)(.*?)(</w:t>)`
(`formatter.py` line 447) at the start of `s`, returning
`(group1, text, rest)`. -/
def matchTextAt (s : Str) : Option (Str × Str × Str) :=
  if s.take 4 = ("<w:t").data then
    match splitAtSub ['>'] (s.drop 4) with
    | some (attr, after) =>
      match splitAtSub ("</w:t>").data after with
      | some (txt, rest) => some (("<w:t").data ++ attr ++ ['>'], txt, rest)
      | none => none
    | none => none
  else none

/-- `re.search` for a bare URL inside a text node's content
(`formatter.py` line 411): first position where the URL regex matches,
returning `(pre, url, post)`. -/
def searchUrlAct : Nat → Str → Option (Str × Str × Str)
  | 0, _ => none
  | _ + 1, [] => none
  | fuel + 1, c :: t =>
    match matchUrl actUrlCls (c :: t) with
    | some (url, rest) => some ([], url, rest)
    | none => Option.map (fun x => (c :: x.1, x.2.1, x.2.2)) (searchUrlAct fuel t)

/-- The field-code construct emitted for an activated URL
(`formatter.py` lines 424-435). -/
def fieldXml (safeUrl cleanUrl : Str) : Str :=
  ("<w:r><w:fldChar w:fldCharType=\"begin\"/></w:r><w:r><w:instrText xml:space=\"preserve\"> HYPERLINK \"").data ++
    safeUrl ++ ("\" </w:instrText></w:r><w:r><w:fldChar w:fldCharType=\"separate\"/></w:r><w:r><w:rPr><w:color w:val=\"0000FF\"/><w:u w:val=\"single\"/></w:rPr><w:t>").data ++
    cleanUrl ++ ("</w:t></w:r><w:r><w:fldChar w:fldCharType=\"end\"/></w:r>").data

/-- `LinkActivator.linkify_text_node` (`formatter.py` lines 409-439):
rewrite one text node, splitting the first bare URL out into a
field-code hyperlink.  `g1` is the opening `<w:t...>` group. -/
def linkify_text_node (g1 txt : Str) : Str :=
  match searchUrlAct txt.length txt with
  | none => g1 ++ txt ++ ("</w:t>").data
  | some (pre, url, post) =>
    let cl := rstripSplit actPunct url
    g1 ++ pre ++ ("</w:t></w:r>").data ++ fieldXml (htmlEscape cl.1) cl.1 ++
      ("<w:r><w:t>").data ++ cl.2 ++ post ++ ("</w:t>").data

/-- The inner `re.sub` over text nodes applied to a whole matched run
(`formatter.py` line 447). -/
def subTextNodes : Nat → Str → Str
  | 0, s => s
  | _ + 1, [] => []
  | fuel + 1, c :: t =>
    match matchTextAt (c :: t) with
    | some (g1, txt, rest) => linkify_text_node g1 txt ++ subTextNodes fuel rest
    | none => c :: subTextNodes fuel t

/-- `LinkActivator.process_run` (`formatter.py` lines 443-447): a run
match whose inner group already contains `HYPERLINK` or `w:instrText` is
returned unchanged, otherwise its text nodes are linkified. -/
def process_run (g1 g2 : Str) : Str :=
  let whole := g1 ++ g2 ++ ("</w:r>").data
  if containsSub g2 ("HYPERLINK").data || containsSub g2 ("w:instrText").data then whole
  else subTextNodes whole.length whole

/-- The outer `re.sub` of the run pattern over a part's content
(`formatter.py` line 449). -/
def actSub : Nat → Str → Str
  | 0, s => s
  | _ + 1, [] => []
  | fuel + 1, c :: t =>
    match matchRunAt (c :: t) with
    | some (g1, g2, rest) => process_run g1 g2 ++ actSub fuel rest
    | none => c :: actSub fuel t

/-- `LinkActivator.process` restricted to the content of one target XML
part (`formatter.py` lines 392-462). -/
def activate_links (content : Str) : Str := actSub content.length content

/-- Disk operations, for the save-path side effects of the source. -/
inductive FsOp where
  | openWrite : String → FsOp
  | addEntry : String → String → FsOp
  | writeFile : String → FsOp
  | makeDirs : String → FsOp
  | rename : String → String → FsOp
deriving DecidableEq, Repr

/-- `WordDocumentProcessor.save_as` (`document.py` lines 146-151) as the
sequence of disk operations it performs: the destination zip is opened
for writing directly at `outputPath` and one entry is streamed into it
per extracted file.  No temporary path and no rename appear. -/
def save_as_trace (files : List String) (outputPath : String) : List FsOp :=
  FsOp.openWrite outputPath :: files.map (fun f => FsOp.addEntry outputPath f)

/-- The disk operations of `WordDocumentProcessor.write_endnote`
(`document.py` lines 94, 107-108): intermediate editing writes the
endnotes part and the relationships sidecar to files in the extraction
directory. -/
def write_endnote_disk_trace : List FsOp :=
  [FsOp.makeDirs "word/_rels", FsOp.writeFile "word/endnotes.xml",
    FsOp.writeFile "word/_rels/endnotes.xml.rels"]

/-- Whether an operation writes at the destination path itself. -/
def touchesDest (dest : String) : FsOp → Bool
  | .openWrite p => p = dest
  | .addEntry p _ => p = dest
  | .writeFile p => p = dest
  | _ => false

/-- Whether an operation is a rename onto the destination path. -/
def isRenameTo (dest : String) : FsOp → Bool
  | .rename _ d => d = dest
  | _ => false

/-- Whether an operation is a rename at all. -/
def isRename : FsOp → Bool
  | .rename _ _ => true
  | _ => false

/-- Modelled from the spec: "write to a temporary path, then rename over
the destination" — a trace is write-temp-then-rename for `dest` when no
operation writes at `dest` directly and some rename lands on `dest`. -/
def writeTempThenRename (tr : List FsOp) (dest : String) : Bool :=
  tr.all (fun op => !touchesDest dest op) && tr.any (isRenameTo dest)

/-- A fixed stream of minted UUID suffixes for concrete runs. -/
def sfxD : Nat → Str := fun _ => ("deadbeef").data

/-- Endnotes part whose note 2 carries a relationship-backed hyperlink on
`rId5`, as in the spec's preservation scenario. -/
def exC1 : Str :=
  ("<w:endnotes><w:endnote w:id=\"2\"><w:p><w:r><w:t>See </w:t></w:r><w:hyperlink r:id=\"rId5\"><w:r><w:rPr><w:rStyle w:val=\"Hyperlink\"/></w:rPr><w:t>old text</w:t></w:r></w:hyperlink><w:r><w:t>.</w:t></w:r></w:p></w:endnote></w:endnotes>").data

/-- Bytes of `exC1` before the matched note. -/
def preC1 : Str := ("<w:endnotes>").data

/-- Opening tag of note 2 in `exC1`. -/
def openC1 : Str := ("<w:endnote w:id=\"2\">").data

/-- Inner content of note 2 in `exC1`. -/
def innerC1 : Str :=
  ("<w:p><w:r><w:t>See </w:t></w:r><w:hyperlink r:id=\"rId5\"><w:r><w:rPr><w:rStyle w:val=\"Hyperlink\"/></w:rPr><w:t>old text</w:t></w:r></w:hyperlink><w:r><w:t>.</w:t></w:r></w:p>").data

/-- Bytes of `exC1` after the matched note. -/
def postC1 : Str := ("</w:endnotes>").data

/-- The caller's replacement markup in the preservation scenario. -/
def newHtmlC1 : Str := ("See http://new.example.").data

/-- Relationship table loaded from the sidecar in the preservation
scenario: `rId5` exists and targets the old URL. -/
def relTableC1 : RelTable :=
  [(("rId5").data, ⟨("http://old.example").data, hyperlinkType, true⟩)]

/-- Patched endnotes content in the preservation scenario. -/
def outC1 : Str :=
  match write_endnote exC1 (("2").data) newHtmlC1 relTableC1 sfxD with
  | some pr => pr.1
  | none => []

/-- Relationship table holding `rId1..rId9` and `rId20`, the spec's
collision scenario. -/
def relTableC2 : RelTable :=
  (List.range 9).map (fun k =>
    ((("rId").data ++ (Nat.repr (k + 1)).data, ⟨("http://t.example").data, hyperlinkType, true⟩))) ++
    [(("rId20").data, ⟨("http://t20.example").data, hyperlinkType, true⟩)]

/-- The extracted files re-zipped by `save_as` in a concrete run. -/
def filesC3 : List String := ["word/document.xml", "word/endnotes.xml", "word/styles.xml"]

/-- Endnotes part holding three plain notes, for the isolation scenario. -/
def exIso : Str :=
  ("<w:endnotes><w:endnote w:id=\"2\"><w:p><w:r><w:t>Two.</w:t></w:r></w:p></w:endnote><w:endnote w:id=\"3\"><w:p><w:r><w:t>Three.</w:t></w:r></w:p></w:endnote><w:endnote w:id=\"4\"><w:p><w:r><w:t>Four.</w:t></w:r></w:p></w:endnote></w:endnotes>").data

/-- A styles part that a patch must not touch. -/
def stylesC4 : Str := ("<w:styles><w:style w:styleId=\"Base\"/></w:styles>").data

/-- Extraction directory for the isolation scenario. -/
def exPartsC4 : Parts := [(endnotesName, exIso), ("word/styles.xml", stylesC4)]

/-- Resulting extraction directory after patching note 3 of `exPartsC4`. -/
def outC4 : Parts :=
  match write_endnote_parts exPartsC4 (("3").data) (("fixed three").data) none sfxD with
  | some pr => pr.2
  | none => []

/-- Resulting endnotes content after patching note 3 of `exIso`. -/
def outC4content : Str :=
  match write_endnote exIso (("3").data) (("fixed three").data) [] sfxD with
  | some pr => pr.1
  | none => []

/-- A run whose text holds one bare URL with trailing period, the spec's
punctuation scenario. -/
def dVisit : Str := ("<w:p><w:r><w:t>Visit http://x.com/a.</w:t></w:r></w:p>").data

/-- A run whose URL ends in a colon. -/
def dColon : Str := ("<w:r><w:t>Visit http://x.com/a:</w:t></w:r>").data

/-- A run whose text holds two bare URLs. -/
def dTwo : Str :=
  ("<w:endnote w:id=\"2\"><w:p><w:r><w:t>http://a.com http://b.com</w:t></w:r></w:p></w:endnote>").data

/-- Expected activation of `dVisit`: field-code link covering exactly the
clean URL, period in a separate plain run. -/
def dVisitActivated : Str :=
  ("<w:p><w:r><w:t>Visit </w:t></w:r><w:r><w:fldChar w:fldCharType=\"begin\"/></w:r><w:r><w:instrText xml:space=\"preserve\"> HYPERLINK \"http://x.com/a\" </w:instrText></w:r><w:r><w:fldChar w:fldCharType=\"separate\"/></w:r><w:r><w:rPr><w:color w:val=\"0000FF\"/><w:u w:val=\"single\"/></w:rPr><w:t>http://x.com/a</w:t></w:r><w:r><w:fldChar w:fldCharType=\"end\"/></w:r><w:r><w:t>.</w:t></w:r></w:p>").data

/-- Expected translation of the markup `"Visit http://x.com/a."`:
relationship hyperlink covering exactly the clean URL, period in a
separate plain run. -/
def visitMarkupXml : Str :=
  ("<w:p><w:r><w:t xml:space=\"preserve\">Visit </w:t></w:r><w:hyperlink r:id=\"rIddeadbeef\"><w:r><w:rPr><w:rStyle w:val=\"Hyperlink\"/></w:rPr><w:t>http://x.com/a</w:t></w:r></w:hyperlink><w:r><w:t>.</w:t></w:r></w:p>").data

/-- An endnote element with no paragraph or run structure at all. -/
def exC7 : Str := ("<w:endnotes><w:endnote w:id=\"7\"></w:endnote></w:endnotes>").data

/-- Extraction directory holding only the malformed-note part. -/
def exPartsC7 : Parts := [(endnotesName, exC7)]

/-- Endnotes part with reserved separator notes `-1` and `0` plus real
notes `1` and `2`. -/
def exReserved : Str :=
  ("<w:endnotes><w:endnote w:id=\"-1\"><w:p><w:r><w:t>sep</w:t></w:r></w:p></w:endnote><w:endnote w:id=\"0\"><w:p><w:r><w:t>cont</w:t></w:r></w:p></w:endnote><w:endnote w:id=\"1\"><w:p><w:r><w:t>Alpha.</w:t></w:r></w:p></w:endnote><w:endnote w:id=\"2\"><w:p><w:r><w:t>Beta.</w:t></w:r></w:p></w:endnote></w:endnotes>").data

/-- Endnotes part whose note 1 has only whitespace text and whose note 2
has no text-bearing run. -/
def exBlank : Str :=
  ("<w:endnotes><w:endnote w:id=\"1\"><w:p><w:r><w:t> </w:t></w:r><w:r><w:t xml:space=\"preserve\">\t</w:t></w:r></w:p></w:endnote><w:endnote w:id=\"2\"><w:p><w:r></w:r></w:p></w:endnote></w:endnotes>").data

/-- Endnotes part for the dangling-relationship scenario: note 3 keeps a
hyperlink on `rId7`. -/
def exC9content : Str :=
  ("<w:endnotes><w:endnote w:id=\"2\"><w:p><w:r><w:t>Old cite.</w:t></w:r></w:p></w:endnote><w:endnote w:id=\"3\"><w:p><w:hyperlink r:id=\"rId7\"><w:r><w:t>link</w:t></w:r></w:hyperlink></w:p></w:endnote></w:endnotes>").data

/-- Extraction directory whose relationships sidecar exists but holds
unparseable bytes. -/
def exPartsC9 : Parts := [(endnotesName, exC9content), (relsName, ("not relationship xml").data)]

/-- Resulting extraction directory after patching note 2 of `exPartsC9`
with the sidecar parse having failed (`parsedRels = none`). -/
def outC9 : Parts :=
  match write_endnote_parts exPartsC9 (("2").data) (("New http://q.example.").data) none sfxD with
  | some pr => pr.2
  | none => []

/-- The endnotes bytes written in the dangling-relationship scenario. -/
def endC9out : Str := (lookupPart outC9 endnotesName).getD []

/-- The sidecar bytes written in the dangling-relationship scenario. -/
def relsC9out : Str := (lookupPart outC9 relsName).getD []

/-- A successful first-occurrence split reassembles the original string. -/
theorem splitAtSub_eq (pat : Str) :
    ∀ s b a, splitAtSub pat s = some (b, a) → s = b ++ pat ++ a := by
  intro s
  induction s with
  | nil => intro b a h; simp [splitAtSub] at h
  | cons c t ih =>
    intro b a h
    by_cases hp : (c :: t).take pat.length = pat
    · rw [splitAtSub, if_pos hp, Option.some.injEq, Prod.mk.injEq] at h
      obtain ⟨hb, ha⟩ := h
      subst hb ha
      simp only [List.nil_append]
      nth_rewrite 1 [← hp]
      exact (List.take_append_drop pat.length (c :: t)).symm
    · rw [splitAtSub, if_neg hp] at h
      cases hrec : splitAtSub pat t with
      | none => rw [hrec] at h; simp at h
      | some pr =>
        obtain ⟨b', a'⟩ := pr
        rw [hrec, Option.some.injEq, Prod.mk.injEq] at h
        obtain ⟨hb, ha⟩ := h
        subst hb ha
        simp [ih b' a' hrec]

/-- A successful opening-tag match splits off a prefix of the string. -/
theorem matchNoteOpen_eq (noteId s o r : Str)
    (h : matchNoteOpen noteId s = some (o, r)) : s = o ++ r := by
  unfold matchNoteOpen at h
  by_cases h10 : s.take 10 = openEndnote
  · rw [if_pos h10] at h
    cases hsp : splitAtSub ['>'] (s.drop 10) with
    | none => rw [hsp] at h; simp at h
    | some pr =>
      obtain ⟨body, after⟩ := pr
      simp only [hsp] at h
      by_cases hc : containsSub body (idAttr noteId) = true
      · rw [if_pos hc, Option.some.injEq, Prod.mk.injEq] at h
        obtain ⟨ho, hr⟩ := h
        subst ho hr
        have hps := splitAtSub_eq _ _ _ _ hsp
        calc s = s.take 10 ++ s.drop 10 := (List.take_append_drop 10 s).symm
          _ = openEndnote ++ (body ++ ['>'] ++ after) := by rw [h10, hps]
          _ = openEndnote ++ body ++ ['>'] ++ after := by simp
      · rw [if_neg hc] at h; simp at h
  · rw [if_neg h10] at h; simp at h

/-- A successful note search decomposes the content into the bytes before
the match, the note's opening tag, its inner content, the close tag, and
the bytes after the match. -/
theorem findNoteSplit_eq (noteId : Str) :
    ∀ s p o i q, findNoteSplit noteId s = some (p, o, i, q) →
      s = p ++ o ++ i ++ closeEndnote ++ q := by
  intro s
  induction s with
  | nil => intro p o i q h; simp [findNoteSplit] at h
  | cons c t ih =>
    intro p o i q h
    rw [findNoteSplit] at h
    cases hm : matchNoteOpen noteId (c :: t) with
    | some pr =>
      obtain ⟨o', r⟩ := pr
      simp only [hm] at h
      cases hsp : splitAtSub closeEndnote r with
      | some pr2 =>
        obtain ⟨i', q'⟩ := pr2
        simp only [hsp, Option.some.injEq, Prod.mk.injEq] at h
        obtain ⟨hp, ho, hi, hq⟩ := h
        subst hp ho hi hq
        have h1 := matchNoteOpen_eq noteId (c :: t) o' r hm
        have h2 := splitAtSub_eq closeEndnote r i' q' hsp
        simp [h1, h2]
      | none =>
        simp only [hsp] at h
        cases hrec : findNoteSplit noteId t with
        | none => rw [hrec] at h; simp at h
        | some x =>
          obtain ⟨p', o', i', q'⟩ := x
          rw [hrec] at h
          simp at h
          obtain ⟨hp, ho, hi, hq⟩ := h
          subst hp ho hi hq
          simpa using ih p' o' i' q' hrec
    | none =>
      simp only [hm] at h
      cases hrec : findNoteSplit noteId t with
      | none => rw [hrec] at h; simp at h
      | some x =>
        obtain ⟨p', o', i', q'⟩ := x
        rw [hrec] at h
        simp at h
        obtain ⟨hp, ho, hi, hq⟩ := h
        subst hp ho hi hq
        simpa using ih p' o' i' q' hrec

/-- Writing one part leaves the lookup of every other part unchanged. -/
theorem lookupPart_updatePart (ps : Parts) (n : String) (v : Str) (m : String)
    (h : m ≠ n) : lookupPart (updatePart ps n v) m = lookupPart ps m := by
  induction ps with
  | nil =>
    simp only [updatePart, lookupPart]
    rw [if_neg (fun e => h e.symm)]
  | cons pr t ih =>
    obtain ⟨k, w⟩ := pr
    by_cases hk : k = n
    · subst hk
      simp only [updatePart, if_pos rfl, lookupPart]
      rw [if_neg (fun e => h e.symm), if_neg (fun e => h e.symm)]
    · simp only [updatePart, if_neg hk, lookupPart]
      by_cases hm : k = m
      · rw [if_pos hm, if_pos hm]
      · rw [if_neg hm, if_neg hm, ih]

/-- Every character kept by `takeWhile` satisfies the predicate. -/
theorem takeWhile_all_self (p : Char → Bool) :
    ∀ l : Str, (l.takeWhile p).all p = true := by
  intro l
  induction l with
  | nil => rfl
  | cons c t ih =>
    by_cases h : p c
    · simp [List.takeWhile_cons, h, ih]
    · simp [List.takeWhile_cons, h]

/-- Stripping trailing characters splits the string, losing nothing. -/
theorem rstripSplit_append (set s : Str) :
    (rstripSplit set s).1 ++ (rstripSplit set s).2 = s := by
  simp only [rstripSplit]
  rw [← List.reverse_append, List.takeWhile_append_dropWhile, List.reverse_reverse]

/-- Every stripped trailing character comes from the strip set. -/
theorem rstripSplit_all (set s : Str) :
    ((rstripSplit set s).2).all set.contains = true := by
  simp only [rstripSplit]
  rw [List.all_reverse]
  exact takeWhile_all_self _ _

/-- Archive-entry writes of `save_as` are never renames. -/
theorem save_as_entries_no_rename (out : String) :
    ∀ l : List String, (l.map (fun f => FsOp.addEntry out f)).any isRename = false := by
  intro l
  induction l with
  | nil => rfl
  | cons f t ih => simp [isRename, ih]

/-- C1: the claim fails — `write_endnote` never inspects the targeted
note for a relationship-backed hyperlink.  On the spec's own scenario
(note backed by `rId5`, markup `"See http://new.example."` with exactly
one URL) the patched note drops `rId5` entirely and carries a freshly
minted `rIddeadbeef` hyperlink instead, produced by whole-content
replacement. -/
theorem C1_counterexample :
    containsSub exC1 (("rId5").data) = true ∧
    (write_endnote exC1 (("2").data) newHtmlC1 relTableC1 sfxD).isSome = true ∧
    containsSub outC1 (("rId5").data) = false ∧
    containsSub outC1 (("r:id=\"rIddeadbeef\"").data) = true := by
  decide

/-- C1 (amended): for every document and note id, a successful `set_note`
performs whole-content replacement: the note's entire inner content is
replaced by the translation of the caller's markup, which mints a fresh
relationship id for each URL; the pre-existing relationship is never
reused and never consulted. -/
theorem C1_always_whole_replacement (content noteId html : Str) (t : RelTable)
    (sfx : Nat → Str) (p o i q : Str)
    (h : findNoteSplit noteId content = some (p, o, i, q)) :
    write_endnote content noteId html t sfx =
      some (p ++ o ++ (html_to_word_xml html t sfx).1 ++ closeEndnote ++ q,
        (html_to_word_xml html t sfx).2) := by
  simp [write_endnote, h]

/-- C1 witness: the whole-replacement theorem applied to the spec's
hyperlink-preservation scenario. -/
theorem C1_always_whole_replacement_witness :
    write_endnote exC1 (("2").data) newHtmlC1 relTableC1 sfxD =
      some (preC1 ++ openC1 ++ (html_to_word_xml newHtmlC1 relTableC1 sfxD).1 ++
        closeEndnote ++ postC1, (html_to_word_xml newHtmlC1 relTableC1 sfxD).2) :=
  C1_always_whole_replacement exC1 (("2").data) newHtmlC1 relTableC1 sfxD
    preC1 openC1 innerC1 postC1 (by decide)

/-- C2: the claim fails — on the spec's own collision scenario
(`rId1..rId9` plus `rId20`) `add_hyperlink` does not return `rId21`; its
id is `rId` followed by the eight-hex UUID suffix. -/
theorem C2_counterexample :
    (add_hyperlink relTableC2 (("http://u.example").data) (("deadbeef").data)).1 ≠
      ("rId21").data := by
  decide

/-- C2 (amended): for every table and URL, `add_hyperlink` returns
`rId` followed by the random eight-hex UUID suffix — independent of the
ids already present, with no maximum computation and no collision check —
and inserts an `external=true` hyperlink-kind entry under that id; since
the suffix has eight characters the result is never `rId21`. -/
theorem C2_add_hyperlink_uuid :
    (∀ (t : RelTable) (url sfx : Str), add_hyperlink t url sfx =
      (("rId").data ++ sfx, insertRel t (("rId").data ++ sfx) ⟨url, hyperlinkType, true⟩)) ∧
    (∀ sfx : Str, sfx.length = 8 → ("rId").data ++ sfx ≠ ("rId21").data) := by
  constructor
  · intro t url sfx; rfl
  · intro sfx hlen h
    have hl := congrArg List.length h
    have h3 : (("rId").data).length = 3 := rfl
    have h5 : (("rId21").data).length = 5 := rfl
    rw [List.length_append, h3, hlen, h5] at hl
    omega

/-- C2 witness: the uuid-shaped id theorem at the concrete suffix. -/
theorem C2_add_hyperlink_uuid_witness :
    ("rId").data ++ ("deadbeef").data ≠ ("rId21").data :=
  C2_add_hyperlink_uuid.2 (("deadbeef").data) (by decide)

/-- C3: the claim fails — the save trace of a concrete document writes
the destination path directly and contains no rename, so the
write-temp-then-rename discipline required by the spec does not hold. -/
theorem C3_counterexample :
    writeTempThenRename (save_as_trace filesC3 "out.docx") "out.docx" = false := by
  decide

/-- C3 (amended): for every file set and destination, `save_as` opens the
destination zip directly and streams entries into it, performing no
rename at all, so an interruption mid-write can leave a partial archive
at the destination; moreover intermediate editing is not in-memory:
`write_endnote` writes the endnotes part (and the relationships sidecar)
to disk inside the extraction directory before any save. -/
theorem C3_save_writes_destination_directly :
    (∀ (files : List String) (out : String),
      FsOp.openWrite out ∈ save_as_trace files out) ∧
    (∀ (files : List String) (out : String),
      (save_as_trace files out).any isRename = false) ∧
    (∀ (files : List String) (out : String),
      writeTempThenRename (save_as_trace files out) out = false) ∧
    FsOp.writeFile "word/endnotes.xml" ∈ write_endnote_disk_trace := by
  refine ⟨?_, ?_, ?_, by decide⟩
  · intro files out; simp [save_as_trace]
  · intro files out
    simp only [save_as_trace, List.any_cons, save_as_entries_no_rename]
    rfl
  · intro files out
    simp [writeTempThenRename, save_as_trace, touchesDest]

/-- C4: confirmed — a successful `write_endnote` splices the rewritten
note back at the exact original offsets: the output endnotes content is
the original bytes before the match, the unchanged opening tag, the new
runs, the close tag, and the original bytes after the match, so every
byte outside the note's span (in particular every other note) is copied
verbatim; and at the parts level only `word/endnotes.xml` and its
relationships sidecar are written, so `word/styles.xml` and all other
parts are untouched. -/
theorem C4_splice_isolation :
    (∀ (content noteId html : Str) (t : RelTable) (sfx : Nat → Str) (c2 : Str)
      (t2 : RelTable), write_endnote content noteId html t sfx = some (c2, t2) →
      ∃ p o i q, content = p ++ o ++ i ++ closeEndnote ++ q ∧
        c2 = p ++ o ++ (html_to_word_xml html t sfx).1 ++ closeEndnote ++ q) ∧
    (∀ (parts : Parts) (noteId html : Str) (pr : Option RelTable) (sfx : Nat → Str)
      (b : Bool) (out : Parts) (name : String),
      write_endnote_parts parts noteId html pr sfx = some (b, out) →
      name ≠ endnotesName → name ≠ relsName →
      lookupPart out name = lookupPart parts name) := by
  constructor
  · intro content noteId html t sfx c2 t2 h
    unfold write_endnote at h
    cases hf : findNoteSplit noteId content with
    | none => rw [hf] at h; simp at h
    | some x =>
      obtain ⟨p, o, i, q⟩ := x
      simp only [hf, Option.some.injEq, Prod.mk.injEq] at h
      exact ⟨p, o, i, q, findNoteSplit_eq noteId content p o i q hf, h.1.symm⟩
  · intro parts noteId html pr sfx b out name h hn hr
    unfold write_endnote_parts at h
    cases hl : lookupPart parts endnotesName with
    | none => rw [hl] at h; simp at h
    | some content =>
      simp only [hl] at h
      cases hw : write_endnote content noteId html (loadRels pr) sfx with
      | none =>
        simp only [hw, Option.some.injEq, Prod.mk.injEq] at h
        rw [← h.2]
      | some pr2 =>
        obtain ⟨c2, t2⟩ := pr2
        simp only [hw, Option.some.injEq, Prod.mk.injEq] at h
        rw [← h.2, lookupPart_updatePart _ _ _ _ hr, lookupPart_updatePart _ _ _ _ hn]

/-- C4 witness: patching note 3 of the three-note document leaves
`word/styles.xml` untouched, and the endnotes bytes outside the note's
span are the original ones. -/
theorem C4_splice_isolation_witness :
    (lookupPart outC4 "word/styles.xml" = lookupPart exPartsC4 "word/styles.xml") ∧
    (∃ p o i q, exIso = p ++ o ++ i ++ closeEndnote ++ q ∧
      outC4content = p ++ o ++ (html_to_word_xml (("fixed three").data) [] sfxD).1 ++
        closeEndnote ++ q) := by
  constructor
  · exact C4_splice_isolation.2 exPartsC4 (("3").data) (("fixed three").data) none sfxD
      true outC4 "word/styles.xml" (by decide) (by decide) (by decide)
  · exact C4_splice_isolation.1 exIso (("3").data) (("fixed three").data) [] sfxD
      outC4content (html_to_word_xml (("fixed three").data) [] sfxD).2 (by decide)

/-- C5: the claim fails — the activation pass is not idempotent: on a
run whose text node holds two bare URLs, the first pass activates only
the first URL, and a second pass changes the document again by
activating the second. -/
theorem C5_counterexample :
    activate_links (activate_links dTwo) ≠ activate_links dTwo := by
  decide

/-- C5 (amended): a second activation pass leaves already-activated
constructs unchanged — a run match containing `HYPERLINK` or
`w:instrText` is skipped — so a document whose text nodes hold at most
one bare URL, such as the spec's single-URL example, is a fixed point
after one (effective) pass; but each pass activates only the first bare
URL of a text node, so activation is not idempotent in general. -/
theorem C5_single_url_fixed_point :
    activate_links (activate_links dVisit) = activate_links dVisit ∧
    activate_links dVisit ≠ dVisit ∧
    containsSub (activate_links dVisit) (("HYPERLINK").data) = true := by
  decide

/-- C6: the claim fails for the activation pass — its strip set `.,;)`
lacks the colon, so a URL ending in `:` keeps the colon inside the
clickable span: both the displayed link text and the HYPERLINK field
target include the trailing colon. -/
theorem C6_counterexample :
    containsSub (activate_links dColon) (("<w:t>http://x.com/a:</w:t>").data) = true ∧
    containsSub (activate_links dColon) ((" HYPERLINK \"http://x.com/a:\" ").data) = true := by
  decide

/-- C6 (amended): trailing punctuation is split into its own plain run
and excluded from the clickable span with strip set `.,;:)` in the
markup translator but only `.,;)` (no colon) in the activation pass; in
both paths the strip loses no characters and strips only characters of
its set, and on the spec's period example both paths produce a link
covering exactly `http://x.com/a` with the final `.` as a separate
trailing run. -/
theorem C6_punct_split :
    ((html_to_word_xml (("Visit http://x.com/a.").data) [] sfxD).1 = visitMarkupXml) ∧
    (activate_links dVisit = dVisitActivated) ∧
    (∀ s, (rstripSplit htmlPunct s).1 ++ (rstripSplit htmlPunct s).2 = s) ∧
    (∀ s, ((rstripSplit htmlPunct s).2).all htmlPunct.contains = true) ∧
    (∀ s, (rstripSplit actPunct s).1 ++ (rstripSplit actPunct s).2 = s) ∧
    (∀ s, ((rstripSplit actPunct s).2).all actPunct.contains = true) ∧
    (htmlPunct.contains ':' = true ∧ actPunct.contains ':' = false) := by
  exact ⟨by decide, by decide, fun s => rstripSplit_append htmlPunct s,
    fun s => rstripSplit_all htmlPunct s, fun s => rstripSplit_append actPunct s,
    fun s => rstripSplit_all actPunct s, by decide, by decide⟩

/-- C7: the claim fails — on a note element with no paragraph or run
structure at all, `write_endnote` does not fail with `MalformedNote`
(no such failure mode exists in the code): it succeeds and rewrites the
note, replacing its empty inner content with a fresh paragraph. -/
theorem C7_counterexample :
    (write_endnote exC7 (("7").data) (("fixed").data) [] sfxD).isSome = true ∧
    (write_endnote exC7 (("7").data) (("fixed").data) [] sfxD).map Prod.fst ≠
      some exC7 := by
  decide

/-- C7 (amended): `set_note` fails exactly when no note with the given
id matches (the `NoteNotFound` case, returned as `False`); whenever the
note element matches — even with no paragraph/run structure — the patch
succeeds by whole-content replacement.  On the not-found failure the
extraction directory is returned untouched, nothing having been
written. -/
theorem C7_no_malformed_failure :
    (∀ (content noteId html : Str) (t : RelTable) (sfx : Nat → Str),
      (write_endnote content noteId html t sfx).isSome =
        (findNoteSplit noteId content).isSome) ∧
    (∀ (parts : Parts) (noteId html : Str) (pr : Option RelTable) (sfx : Nat → Str)
      (content : Str), lookupPart parts endnotesName = some content →
      findNoteSplit noteId content = none →
      write_endnote_parts parts noteId html pr sfx = some (false, parts)) := by
  constructor
  · intro content noteId html t sfx
    unfold write_endnote
    cases hf : findNoteSplit noteId content with
    | none => simp
    | some x => obtain ⟨p, o, i, q⟩ := x; simp
  · intro parts noteId html pr sfx content hl hf
    have hw : write_endnote content noteId html (loadRels pr) sfx = none := by
      unfold write_endnote
      rw [hf]
    unfold write_endnote_parts
    rw [hl]
    simp only [hw]

/-- C7 witness: a missing note id makes the patch report failure and
leave the parts untouched. -/
theorem C7_no_malformed_failure_witness :
    (write_endnote exC7 (("9").data) (("x").data) [] sfxD).isSome = false ∧
    write_endnote_parts exPartsC7 (("9").data) (("x").data) none sfxD =
      some (false, exPartsC7) := by
  constructor
  · rw [C7_no_malformed_failure.1 exC7 (("9").data) (("x").data) [] sfxD]
    decide
  · exact C7_no_malformed_failure.2 exPartsC7 (("9").data) (("x").data) none sfxD exC7
      (by decide) (by decide)

/-- C8: confirmed — `get_endnotes` never returns a note with reserved id
`0` or `-1`, and the part holding notes `-1, 0, 1, 2` yields exactly the
notes `1` and `2`. -/
theorem C8_reserved_ids :
    (∀ (content : Str) (n : EndnoteRec), n ∈ get_endnotes content →
      n.id ≠ ("0").data ∧ n.id ≠ ("-1").data) ∧
    get_endnotes exReserved =
      [⟨("1").data, ("Alpha.").data⟩, ⟨("2").data, ("Beta.").data⟩] := by
  constructor
  · intro content n hn
    simp only [get_endnotes, List.mem_filterMap] at hn
    obtain ⟨pr, _, hsome⟩ := hn
    simp only [noteToRec] at hsome
    split_ifs at hsome with h0 ht
    cases hsome
    push_neg at h0
    exact ⟨h0.1, h0.2⟩
  · decide

/-- C8 witness: note `1` returned from the reserved-id document has a
non-reserved id. -/
theorem C8_reserved_ids_witness :
    (⟨("1").data, ("Alpha.").data⟩ : EndnoteRec) ∈ get_endnotes exReserved ∧
    (⟨("1").data, ("Alpha.").data⟩ : EndnoteRec).id ≠ ("0").data := by
  exact ⟨by decide, (C8_reserved_ids.1 exReserved _ (by decide)).1⟩

/-- C9: confirmed — when the sidecar parse fails the table silently
loads empty, a subsequent mint produces a table holding only the
session's entries, and the persisted sidecar therefore drops every
previously present relationship: in the concrete run, `rId7` is still
referenced from the written endnotes content but absent from the written
sidecar. -/
theorem C9_unparseable_rels_discarded :
    loadRels none = [] ∧
    (∀ url sfx, ((add_hyperlink (loadRels none) url sfx).2).map Prod.fst =
      [("rId").data ++ sfx]) ∧
    (∀ old url sfx, old ≠ ("rId").data ++ sfx →
      old ∉ ((add_hyperlink (loadRels none) url sfx).2).map Prod.fst) ∧
    containsSub exC9content (("rId7").data) = true ∧
    containsSub endC9out (("rId7").data) = true ∧
    containsSub relsC9out (("rId7").data) = false := by
  refine ⟨rfl, fun url sfx => rfl, ?_, by decide, by decide, by decide⟩
  intro old url sfx hne
  simp only [add_hyperlink, loadRels, insertRel, Option.getD]
  simp only [List.map, List.mem_singleton]
  exact fun h => hne (h.trans (by rfl))

/-- C9 witness: the previously referenced id `rId7` is not among the ids
persisted after a failed parse and one mint. -/
theorem C9_unparseable_rels_discarded_witness :
    ("rId7").data ∉
      ((add_hyperlink (loadRels none) (("http://q.example").data)
        (("deadbeef").data)).2).map Prod.fst :=
  C9_unparseable_rels_discarded.2.2.1 (("rId7").data) (("http://q.example").data)
    (("deadbeef").data) (by decide)

/-- C10: confirmed — every note returned by `get_endnotes` has non-empty
(stripped) text, and a part whose notes carry only whitespace text or no
text-bearing runs yields the empty list. -/
theorem C10_blank_notes_omitted :
    (∀ (content : Str) (n : EndnoteRec), n ∈ get_endnotes content → n.text ≠ []) ∧
    get_endnotes exBlank = [] := by
  constructor
  · intro content n hn
    simp only [get_endnotes, List.mem_filterMap] at hn
    obtain ⟨pr, _, hsome⟩ := hn
    simp only [noteToRec] at hsome
    split_ifs at hsome with h0 ht
    cases hsome
    exact ht
  · decide

/-- C10 witness: note `2` of the reserved-id document is returned with
non-empty text. -/
theorem C10_blank_notes_omitted_witness :
    (⟨("2").data, ("Beta.").data⟩ : EndnoteRec) ∈ get_endnotes exReserved ∧
    (⟨("2").data, ("Beta.").data⟩ : EndnoteRec).text ≠ [] := by
  exact ⟨by decide, C10_blank_notes_omitted.1 exReserved _ (by decide)⟩

end CiteFix
